import Mathlib

/-!
Verification development for the CodeBERT embedding service
(`src/services/codebert/main.py`).

The service wraps an external pretrained tokenizer/encoder (the
`transformers` / `torch` libraries). That external model is represented
abstractly by a `ModelCtx`: a hidden dimensionality, a pad token, a
single-text tokenizer (with truncation to `max_length`), and a forward
pass producing the last hidden state as one row of rationals per input
position. Either external step may raise an exception, carried here as
an `Except String` error whose payload is the exception's textual
description (`str(e)` in Python).

Floating-point values are idealised as rationals; the claims under study
are structural (shapes, order, error classes, constants), not about
rounding.
-/

set_option autoImplicit false

deriving instance DecidableEq for Except

/-- Token identifiers produced by the tokenizer. -/
abbrev Token := Nat

/-- Compute devices probed by `load_model` (main.py lines 67-75). -/
inductive Device where
  | cuda
  | mps
  | cpu
deriving DecidableEq

/-- Python `str(torch.device(...))`. -/
def Device.str : Device → String
  | .cuda => "cuda"
  | .mps => "mps"
  | .cpu => "cpu"

/-- Modelled from the spec: the pretrained tokenizer and encoder model that
`load_model` obtains from the external `transformers` library (not part of
this repository). `tokenize text max_length` tokenizes one text with
truncation to `max_length`; `forward toks` returns the model's last hidden
state as one row per input position, each row of length `hiddenSize`
("shape: sequence positions × hidden dimension"); `maxPositions` is the
model's maximum position count. Either operation may raise an exception,
modelled as an error carrying the exception's textual description. -/
structure ModelCtx where
  hiddenSize : Nat
  maxPositions : Nat
  padToken : Token
  tokenize : String → Nat → Except String (List Token)
  forward : List Token → Except String (List (List ℚ))

/-- The process-wide state set once by `load_model` (main.py lines 20-23
and 59-84): the loaded model/tokenizer (as one `ModelCtx`, since they are
loaded together), the name they were loaded from, and the selected device.
`none` models the pre-startup state `model is None or tokenizer is None`. -/
structure LoadedState where
  ctx : ModelCtx
  modelName : String
  device : Device

/-- `load_model` (main.py lines 59-84): read `MODEL_NAME` from the
environment with default `microsoft/codebert-base`, select cuda, then mps,
then cpu, and load tokenizer and model by that name (`from_pretrained`
abstracts the external hub lookup). -/
def load_model (env : String → Option String) (from_pretrained : String → ModelCtx)
    (cuda_available mps_available : Bool) : LoadedState :=
  let model_name := (env "MODEL_NAME").getD "microsoft/codebert-base"
  let device := if cuda_available then Device.cuda
                else if mps_available then Device.mps
                else Device.cpu
  { ctx := from_pretrained model_name, modelName := model_name, device := device }

/-- `outputs.last_hidden_state.mean(dim=1)` for one example (main.py line
128): the arithmetic mean of the hidden-state rows across the
sequence-position axis. The rows of a tensor are rectangular, so `getD j 0`
reads entry `j` of each row. -/
def meanPool (rows : List (List ℚ)) : List ℚ :=
  match rows with
  | [] => []
  | r :: _ =>
    (List.range r.length).map
      (fun j => ((rows.map (fun row => row.getD j 0)).sum) / (rows.length : ℚ))

/-- `generate_embedding` (main.py lines 105-131): raise
`RuntimeError("Model not loaded")` when model/tokenizer are absent,
otherwise tokenize, run the forward pass, and mean-pool the last hidden
state; `embeddings[0].cpu().tolist()` extracts the single example. -/
def generate_embedding (st : Option LoadedState) (text : String) (max_length : Nat) :
    Except String (List ℚ) :=
  match st with
  | none => .error "Model not loaded"
  | some ls =>
    match ls.ctx.tokenize text max_length with
    | .error e => .error e
    | .ok toks =>
      match ls.ctx.forward toks with
      | .error e => .error e
      | .ok rows => .ok (meanPool rows)

/-- Sequence the external call over a list, stopping at the first
exception — the behaviour of the batch tokenizer over its texts and of the
batched forward pass over its examples. -/
def mapE {α β ε : Type} (f : α → Except ε β) : List α → Except ε (List β)
  | [] => .ok []
  | a :: as =>
    match f a with
    | .error e => .error e
    | .ok b =>
      match mapE f as with
      | .error e => .error e
      | .ok bs => .ok (b :: bs)

/-- Longest tokenized length in a batch: the `padding=True` target width. -/
def maxLen (tokss : List (List Token)) : Nat :=
  tokss.foldr (fun ts m => max ts.length m) 0

/-- Pad one tokenized text with the pad token up to width `n`
(`padding=True` in the batch tokenizer pads every text to the longest). -/
def padTo (p : Token) (n : Nat) (ts : List Token) : List Token :=
  ts ++ List.replicate (n - ts.length) p

/-- `generate_batch_embeddings` (main.py lines 134-160): raise when not
loaded; tokenize all texts with truncation and uniform padding across the
batch; run the forward pass on every padded example; mean-pool each
example's rows independently (`mean(dim=1)` then `.tolist()`). -/
def generate_batch_embeddings (st : Option LoadedState) (texts : List String)
    (max_length : Nat) : Except String (List (List ℚ)) :=
  match st with
  | none => .error "Model not loaded"
  | some ls =>
    match mapE (fun t => ls.ctx.tokenize t max_length) texts with
    | .error e => .error e
    | .ok tokss =>
      match mapE ls.ctx.forward (tokss.map (padTo ls.ctx.padToken (maxLen tokss))) with
      | .error e => .error e
      | .ok rowss => .ok (rowss.map meanPool)

/-- Request model for embedding generation (main.py lines 26-29). -/
structure EmbeddingRequest where
  text : String
  max_length : Nat := 512
deriving DecidableEq

/-- Request model for batch embedding generation (main.py lines 32-35). -/
structure BatchEmbeddingRequest where
  texts : List String
  max_length : Nat := 512
deriving DecidableEq

/-- Response model for embedding (main.py lines 38-41). -/
structure EmbeddingResponse where
  embedding : List ℚ
  dimension : Nat
deriving DecidableEq

/-- Response model for batch embeddings (main.py lines 44-48). -/
structure BatchEmbeddingResponse where
  embeddings : List (List ℚ)
  dimension : Nat
  count : Nat
deriving DecidableEq

/-- Response model for health check (main.py lines 51-56). -/
structure HealthResponse where
  status : String
  model : String
  device : String
  dimension : Nat
deriving DecidableEq

/-- HTTP-level failures of an endpoint: `HTTPException(503, ...)`,
`HTTPException(500, ...)`, and an exception escaping a handler that has no
try/except (FastAPI turns it into a raw internal server error). -/
inductive HTTPError where
  | serviceUnavailable (detail : String)
  | internalError (detail : String)
  | unhandled (detail : String)
deriving DecidableEq

/-- `embed_text` endpoint (main.py lines 180-191): call
`generate_embedding`; on success respond with the vector and its length;
any exception is caught and re-raised as `HTTPException(500, str(e))`. -/
def embed_text (st : Option LoadedState) (request : EmbeddingRequest) :
    Except HTTPError EmbeddingResponse :=
  match generate_embedding st request.text request.max_length with
  | .ok embedding => .ok { embedding := embedding, dimension := embedding.length }
  | .error e => .error (.internalError e)

/-- `embed_batch` endpoint (main.py lines 194-213): an empty `texts` list
returns `{embeddings: [], dimension: 768, count: 0}` before any model
access; otherwise call `generate_batch_embeddings` and respond with the
vectors, `len(embeddings[0]) if embeddings else 768`, and the count; any
exception becomes `HTTPException(500, str(e))`. -/
def embed_batch (st : Option LoadedState) (request : BatchEmbeddingRequest) :
    Except HTTPError BatchEmbeddingResponse :=
  if request.texts.length = 0 then
    .ok { embeddings := [], dimension := 768, count := 0 }
  else
    match generate_batch_embeddings st request.texts request.max_length with
    | .ok embeddings =>
      .ok { embeddings := embeddings,
            dimension := (embeddings.head?.map List.length).getD 768,
            count := embeddings.length }
    | .error e => .error (.internalError e)

/-- `health_check` endpoint (main.py lines 163-177): `HTTPException(503)`
when the model is not loaded; otherwise embed the probe string `"test"`
(default `max_length = 512`) to measure the live dimensionality and respond
with status `healthy`, the hard-coded string `microsoft/codebert-base`,
`str(device)`, and that dimensionality. The probe runs outside any
try/except, so an inference failure escapes the handler unhandled. -/
def health_check (st : Option LoadedState) : Except HTTPError HealthResponse :=
  match st with
  | none => .error (.serviceUnavailable "Model not loaded")
  | some ls =>
    match generate_embedding (some ls) "test" 512 with
    | .error e => .error (.unhandled e)
    | .ok test_embedding =>
      .ok { status := "healthy",
            model := "microsoft/codebert-base",
            device := ls.device.str,
            dimension := test_embedding.length }

/-- `root` endpoint (main.py lines 216-227): a constant document. The
handler reads no process state; the parameter records only that it runs in
a process that may or may not have loaded the model. -/
def root (_st : Option LoadedState) : String × String × List (String × String) :=
  ("CodeBERT Embedding Service", "1.0.0",
    [("health", "/health"), ("embed", "/embed"), ("embed_batch", "/embed/batch")])

/-! Concrete model contexts used to instantiate the theorems: the service
accepts any `MODEL_NAME`, so any well-formed `ModelCtx` is a possible
loaded model. -/

/-- A well-behaved model of hidden dimensionality 2: texts tokenize to two
tokens (one when `max_length` truncates below 2) and the forward pass
always emits the single hidden-state row `[1, 2]`. -/
def wCtx : ModelCtx :=
  { hiddenSize := 2, maxPositions := 512, padToken := 0,
    tokenize := fun _ ml => .ok (if ml < 2 then [1] else [1, 1]),
    forward := fun _ => .ok [[1, 2]] }

/-- `wCtx` loaded on cpu. -/
def wLs : LoadedState :=
  { ctx := wCtx, modelName := "microsoft/codebert-base", device := Device.cpu }

/-- A loadable model whose hidden dimensionality is 3, not 768. -/
def oddCtx : ModelCtx :=
  { hiddenSize := 3, maxPositions := 512, padToken := 0,
    tokenize := fun _ _ => .ok [1],
    forward := fun toks => .ok (toks.map (fun _ => [0, 0, 0])) }

/-- `oddCtx` loaded on cpu. -/
def oddLs : LoadedState :=
  { ctx := oddCtx, modelName := "some/other-model", device := Device.cpu }

/-- A model whose tokenizer and forward pass always raise the exception
`boom`. -/
def failCtx : ModelCtx :=
  { hiddenSize := 2, maxPositions := 512, padToken := 0,
    tokenize := fun _ _ => .error "boom",
    forward := fun _ => .error "boom" }

/-- `failCtx` loaded on cpu. -/
def failLs : LoadedState :=
  { ctx := failCtx, modelName := "microsoft/codebert-base", device := Device.cpu }

/-- A model of hidden dimensionality 1 whose pad positions contribute the
row `[5]` while real tokens contribute `[1]`: it makes the effect of
pad tokens on naive mean pooling visible. The text `bb` tokenizes to two
tokens; every other text to one. -/
def padCtx : ModelCtx :=
  { hiddenSize := 1, maxPositions := 512, padToken := 0,
    tokenize := fun t _ => .ok (if t = "bb" then [1, 1] else [1]),
    forward := fun toks => .ok (toks.map (fun tk => if tk = 0 then [5] else [1])) }

/-- `padCtx` loaded on cpu. -/
def padLs : LoadedState :=
  { ctx := padCtx, modelName := "microsoft/codebert-base", device := Device.cpu }

/-- An environment that configures `MODEL_NAME=custom/model`. -/
def customEnv : String → Option String :=
  fun k => if k = "MODEL_NAME" then some "custom/model" else none

/-- A hub that serves `oddCtx` for every model name. -/
def customHub : String → ModelCtx := fun _ => oddCtx

/-- The state `load_model` builds under `customEnv`/`customHub` on cpu. -/
def customLs : LoadedState := load_model customEnv customHub false false

/-! Helper lemmas. -/

/-- A successful `mapE` produces one output per input. -/
theorem mapE_ok_length {α β ε : Type} (f : α → Except ε β)
    (xs : List α) : ∀ (ys : List β), mapE f xs = Except.ok ys → ys.length = xs.length := by
  induction xs with
  | nil =>
    intro ys h
    simp only [mapE, Except.ok.injEq] at h
    subst h
    rfl
  | cons a as ih =>
    intro ys h
    simp only [mapE] at h
    cases hfa : f a with
    | error e => rw [hfa] at h; exact absurd h (by simp)
    | ok b =>
      rw [hfa] at h
      cases hmas : mapE f as with
      | error e => rw [hmas] at h; exact absurd h (by simp)
      | ok bs =>
        rw [hmas] at h
        simp only [Except.ok.injEq] at h
        subst h
        simp [ih bs hmas]

/-- A successful `mapE` maps the `i`-th input to the `i`-th output. -/
theorem mapE_ok_get {α β ε : Type} (f : α → Except ε β)
    (xs : List α) : ∀ (ys : List β), mapE f xs = Except.ok ys →
      ∀ (i : Nat) (x : α), xs[i]? = some x → ∃ y, ys[i]? = some y ∧ f x = Except.ok y := by
  induction xs with
  | nil =>
    intro ys h i x hx
    simp at hx
  | cons a as ih =>
    intro ys h i x hx
    simp only [mapE] at h
    cases hfa : f a with
    | error e => rw [hfa] at h; exact absurd h (by simp)
    | ok b =>
      rw [hfa] at h
      cases hmas : mapE f as with
      | error e => rw [hmas] at h; exact absurd h (by simp)
      | ok bs =>
        rw [hmas] at h
        simp only [Except.ok.injEq] at h
        subst h
        cases i with
        | zero =>
          simp only [List.getElem?_cons_zero, Option.some.injEq] at hx
          subst hx
          exact ⟨b, List.getElem?_cons_zero, hfa⟩
        | succ n =>
          simp only [List.getElem?_cons_succ] at hx ⊢
          exact ih bs hmas n x hx

/-- Mean pooling of a non-empty rectangular stack of rows of length `n`
yields a vector of length `n`. -/
theorem meanPool_length_eq {rows : List (List ℚ)} {n : Nat}
    (hne : rows ≠ []) (h : ∀ row ∈ rows, row.length = n) :
    (meanPool rows).length = n := by
  match rows, hne with
  | r :: rest, _ =>
    have hr : r.length = n := h r (List.mem_cons_self r rest)
    simp [meanPool, hr]

/-- Entry `j` of the mean-pooled vector is the arithmetic mean of the
`j`-th entries of the rows. -/
theorem meanPool_getD {r : List ℚ} {rest : List (List ℚ)} {j : Nat}
    (hj : j < r.length) :
    (meanPool (r :: rest)).getD j 0 =
      (((r :: rest).map (fun row => row.getD j 0)).sum) / (((r :: rest).length : ℚ)) := by
  simp only [meanPool, List.getD_eq_getElem?_getD, List.getElem?_map,
    List.getElem?_range hj, Option.map_some', Option.getD_some]

/-- Padding never empties a non-empty token list. -/
theorem padTo_ne_nil {p : Token} {n : Nat} {ts : List Token} (h : ts ≠ []) :
    padTo p n ts ≠ [] := by
  cases ts with
  | nil => exact absurd rfl h
  | cons a as => simp [padTo]

/-- Decomposition of a successful `generate_embedding` run on a loaded
state: the tokenizer and the forward pass succeeded and the result is the
mean-pooled last hidden state. -/
theorem generate_embedding_ok (ls : LoadedState) (text : String) (max_length : Nat)
    (emb : List ℚ)
    (hok : generate_embedding (some ls) text max_length = Except.ok emb) :
    ∃ toks rows, ls.ctx.tokenize text max_length = Except.ok toks ∧
      ls.ctx.forward toks = Except.ok rows ∧ emb = meanPool rows := by
  simp only [generate_embedding] at hok
  split at hok
  next e htok => exact absurd hok (by simp)
  next toks htok =>
    split at hok
    next e hfwd => exact absurd hok (by simp)
    next rows hfwd =>
      simp only [Except.ok.injEq] at hok
      exact ⟨toks, rows, htok, hfwd, hok.symm⟩

/-- Decomposition of a successful `generate_batch_embeddings` run on a
loaded state: every text tokenized, every padded example went through the
forward pass, and the results are the mean-pooled rows, one per text. -/
theorem generate_batch_embeddings_ok (ls : LoadedState) (texts : List String)
    (max_length : Nat) (embs : List (List ℚ))
    (hok : generate_batch_embeddings (some ls) texts max_length = Except.ok embs) :
    ∃ tokss rowss,
      mapE (fun t => ls.ctx.tokenize t max_length) texts = Except.ok tokss ∧
      mapE ls.ctx.forward (tokss.map (padTo ls.ctx.padToken (maxLen tokss))) =
        Except.ok rowss ∧
      embs = rowss.map meanPool ∧
      tokss.length = texts.length ∧ rowss.length = texts.length := by
  simp only [generate_batch_embeddings] at hok
  split at hok
  next e htokss => exact absurd hok (by simp)
  next tokss htokss =>
    split at hok
    next e hrowss => exact absurd hok (by simp)
    next rowss hrowss =>
      simp only [Except.ok.injEq] at hok
      have hlen1 : tokss.length = texts.length := mapE_ok_length _ texts tokss htokss
      have hlen2 : rowss.length = texts.length := by
        have := mapE_ok_length _ _ rowss hrowss
        simpa [hlen1] using this
      exact ⟨tokss, rowss, htokss, hrowss, hok.symm, hlen1, hlen2⟩

/-- Claim C10: the root endpoint `GET /` always returns the same fixed map
of service name, version, and endpoint paths, regardless of whether the
model has been loaded; it never fails and never reads the model, tokenizer,
or device state. -/
theorem root_constant (st : Option LoadedState) :
    root st = ("CodeBERT Embedding Service", "1.0.0",
      [("health", "/health"), ("embed", "/embed"), ("embed_batch", "/embed/batch")]) ∧
    root st = root none :=
  ⟨rfl, rfl⟩

/-- Claim C6: two calls to `/embed` with identical text and identical
max_length return identical embedding responses — the embedded inference
function is deterministic given the loaded state. -/
theorem embed_deterministic (st : Option LoadedState) (t1 t2 : String) (m1 m2 : Nat)
    (ht : t1 = t2) (hm : m1 = m2) :
    embed_text st { text := t1, max_length := m1 } =
      embed_text st { text := t2, max_length := m2 } := by
  subst ht
  subst hm
  rfl

/-- Witness for `embed_deterministic` at a concrete state and input. -/
theorem embed_deterministic_witness :
    embed_text (some wLs) { text := "a", max_length := 512 } =
      embed_text (some wLs) { text := "a", max_length := 512 } :=
  embed_deterministic (some wLs) "a" "a" 512 512 rfl rfl

/-- Claim C3, counterexample: with a loaded model whose hidden size is 3,
`/embed/batch` on the empty list still answers `dimension = 768`, so the
claimed "dimension equal to the loaded model's hidden size" fails. -/
theorem empty_batch_dimension_counterexample :
    embed_batch (some oddLs) { texts := [], max_length := 512 } =
      Except.ok { embeddings := [], dimension := 768, count := 0 } ∧
    oddLs.ctx.hiddenSize = 3 ∧ (768 : Nat) ≠ 3 :=
  ⟨rfl, rfl, by decide⟩

/-- Claim C3 as amended: `/embed/batch` on the empty list returns an empty
embeddings list, count zero, and the hard-coded dimension 768 (the default
model's hidden size, whatever model is actually loaded), without invoking
the model or tokenizer — the quantification over every state, loaded or
not, shows no model access happens. -/
theorem empty_batch_hardcoded_768 (st : Option LoadedState) (max_length : Nat) :
    embed_batch st { texts := [], max_length := max_length } =
      Except.ok { embeddings := [], dimension := 768, count := 0 } :=
  rfl

/-- Claim C4, counterexample: with the model not loaded, `/embed` fails
with the internal-error class (HTTP 500), not the service-unavailable
(not-ready) class the claim requires. -/
theorem not_ready_embed_counterexample :
    embed_text none { text := "a", max_length := 512 } =
      Except.error (HTTPError.internalError "Model not loaded") ∧
    (Except.error (HTTPError.internalError "Model not loaded") :
        Except HTTPError EmbeddingResponse) ≠
      Except.error (HTTPError.serviceUnavailable "Model not loaded") :=
  ⟨rfl, by decide⟩

/-- Claim C4 as amended: while the model is not loaded, `/health` fails
with the service-unavailable class, `/embed` and `/embed/batch` with a
non-empty texts list fail with the internal-error class carrying the
detail `Model not loaded` (the `RuntimeError` is caught by the generic
handler and re-raised as a 500), and `/embed/batch` with an empty texts
list does not fail at all; no path crashes. -/
theorem not_ready_error_classes (req : EmbeddingRequest) (breq : BatchEmbeddingRequest)
    (hne : breq.texts ≠ []) (ml : Nat) :
    health_check none = Except.error (HTTPError.serviceUnavailable "Model not loaded") ∧
    embed_text none req = Except.error (HTTPError.internalError "Model not loaded") ∧
    embed_batch none breq = Except.error (HTTPError.internalError "Model not loaded") ∧
    embed_batch none { texts := [], max_length := ml } =
      Except.ok { embeddings := [], dimension := 768, count := 0 } := by
  refine ⟨rfl, rfl, ?_, rfl⟩
  simp only [embed_batch]
  rw [if_neg (by simp [List.length_eq_zero, hne])]
  rfl

/-- Witness for `not_ready_error_classes` at concrete requests. -/
theorem not_ready_error_classes_witness :
    health_check none = Except.error (HTTPError.serviceUnavailable "Model not loaded") ∧
    embed_text none { text := "a", max_length := 512 } =
      Except.error (HTTPError.internalError "Model not loaded") ∧
    embed_batch none { texts := ["a"], max_length := 512 } =
      Except.error (HTTPError.internalError "Model not loaded") ∧
    embed_batch none { texts := [], max_length := 512 } =
      Except.ok { embeddings := [], dimension := 768, count := 0 } :=
  not_ready_error_classes { text := "a", max_length := 512 }
    { texts := ["a"], max_length := 512 } (by decide) 512

/-- Claim C5: an exception raised during tokenization or the forward pass
is caught at the endpoint boundary and surfaced as an internal-error
condition whose detail is the exception's textual description, for both
`/embed` and (non-empty) `/embed/batch`; it is never propagated as a raw
crash. -/
theorem inference_exception_becomes_internal_error (ls : LoadedState) (text : String)
    (max_length : Nat) (texts : List String) (e : String)
    (horigin : ls.ctx.tokenize text max_length = Except.error e ∨
      ∃ toks, ls.ctx.tokenize text max_length = Except.ok toks ∧
        ls.ctx.forward toks = Except.error e)
    (hne : texts ≠ [])
    (hbatch : generate_batch_embeddings (some ls) texts max_length = Except.error e) :
    embed_text (some ls) { text := text, max_length := max_length } =
      Except.error (HTTPError.internalError e) ∧
    embed_batch (some ls) { texts := texts, max_length := max_length } =
      Except.error (HTTPError.internalError e) := by
  constructor
  · rcases horigin with htok | ⟨toks, htok, hfwd⟩
    · simp [embed_text, generate_embedding, htok]
    · simp [embed_text, generate_embedding, htok, hfwd]
  · simp only [embed_batch]
    rw [if_neg (by simp [List.length_eq_zero, hne])]
    simp [hbatch]

/-- Witness for `inference_exception_becomes_internal_error` on a model
whose tokenizer raises `boom`. -/
theorem inference_exception_becomes_internal_error_witness :
    embed_text (some failLs) { text := "x", max_length := 512 } =
      Except.error (HTTPError.internalError "boom") ∧
    embed_batch (some failLs) { texts := ["x"], max_length := 512 } =
      Except.error (HTTPError.internalError "boom") :=
  inference_exception_becomes_internal_error failLs "x" 512 ["x"] "boom"
    (Or.inl rfl) (by decide) rfl

/-- Claim C9, reported as a bug of the code: mean pooling runs over every
sequence position with no attention-mask weighting, so pad positions enter
the average. On a model where a pad position contributes the hidden row
`[5]` and real tokens `[1]`, the text `a` alone pools to `[1]`, but inside
the batch `["a", "bb"]` — where it is padded to length 2 — it pools to
`[3]`: the pooled embedding is not invariant to padding. -/
theorem mean_pooling_not_padding_invariant :
    embed_text (some padLs) { text := "a", max_length := 512 } =
      Except.ok { embedding := [1], dimension := 1 } ∧
    embed_batch (some padLs) { texts := ["a", "bb"], max_length := 512 } =
      Except.ok { embeddings := [[3], [1]], dimension := 1, count := 2 } ∧
    ([(3 : ℚ)] ≠ [1]) := by
  refine ⟨?_, ?_, by norm_num⟩
  · simp [embed_text, generate_embedding, padLs, padCtx, meanPool]
    norm_num [List.range_succ]
  · simp [embed_batch, generate_batch_embeddings, padLs, padCtx, mapE, maxLen, padTo, meanPool]
    norm_num [List.range_succ]

/-- Claim C1: for every non-empty input text and every max_length between
1 and the model's maximum position count, `/embed` returns a vector whose
length equals the model's fixed hidden dimensionality, computed as the
arithmetic mean of the model's last hidden state across the
sequence-position axis, and the response's `dimension` field equals the
length of that vector. The external model's shape contract (a non-empty
row per position, rows of width `hiddenSize`) enters as hypotheses. -/
theorem embed_returns_mean_of_hidden_dim (ls : LoadedState) (text : String)
    (max_length : Nat)
    (htext : text ≠ "") (hml1 : 1 ≤ max_length) (hml2 : max_length ≤ ls.ctx.maxPositions)
    (toks : List Token) (htok : ls.ctx.tokenize text max_length = Except.ok toks)
    (rows : List (List ℚ)) (hfwd : ls.ctx.forward toks = Except.ok rows)
    (hrne : rows ≠ []) (hrows : ∀ row ∈ rows, row.length = ls.ctx.hiddenSize) :
    ∃ resp, embed_text (some ls) { text := text, max_length := max_length } =
        Except.ok resp ∧
      resp.embedding.length = ls.ctx.hiddenSize ∧
      resp.dimension = resp.embedding.length ∧
      ∀ j, j < ls.ctx.hiddenSize →
        resp.embedding.getD j 0 =
          ((rows.map (fun row => row.getD j 0)).sum) / ((rows.length : ℚ)) := by
  refine ⟨{ embedding := meanPool rows, dimension := (meanPool rows).length },
    ?_, ?_, rfl, ?_⟩
  · simp [embed_text, generate_embedding, htok, hfwd]
  · exact meanPool_length_eq hrne hrows
  · intro j hj
    cases rows with
    | nil => exact absurd rfl hrne
    | cons r rest =>
      have hr : r.length = ls.ctx.hiddenSize := hrows r (List.mem_cons_self r rest)
      exact meanPool_getD (by omega)

/-- Witness for `embed_returns_mean_of_hidden_dim` on a concrete model. -/
theorem embed_returns_mean_of_hidden_dim_witness :
    ∃ resp, embed_text (some wLs) { text := "ab", max_length := 2 } = Except.ok resp ∧
      resp.embedding.length = wLs.ctx.hiddenSize ∧
      resp.dimension = resp.embedding.length ∧
      ∀ j, j < wLs.ctx.hiddenSize →
        resp.embedding.getD j 0 =
          ((([[(1 : ℚ), 2]] : List (List ℚ)).map (fun row => row.getD j 0)).sum) /
            ((([[(1 : ℚ), 2]] : List (List ℚ)).length : ℚ)) :=
  embed_returns_mean_of_hidden_dim wLs "ab" 2 (by decide) (by decide) (by decide)
    [1, 1] (by decide) [[1, 2]] (by decide) (by decide) (by decide)

/-- Claim C2: for every non-empty ordered list of N texts, `/embed/batch`
returns exactly N vectors, the `count` field equals N, and the `i`-th
returned vector is the mean-pooled forward output of the `i`-th input text
(tokenized and padded to the batch width) — the order of the input is
preserved. -/
theorem embed_batch_count_and_order (ls : LoadedState) (texts : List String)
    (max_length : Nat)
    (hne : texts ≠ []) (embs : List (List ℚ))
    (hok : generate_batch_embeddings (some ls) texts max_length = Except.ok embs) :
    ∃ resp, embed_batch (some ls) { texts := texts, max_length := max_length } =
        Except.ok resp ∧
      resp.count = texts.length ∧
      resp.embeddings.length = texts.length ∧
      resp.embeddings = embs ∧
      ∃ tokss, mapE (fun t => ls.ctx.tokenize t max_length) texts = Except.ok tokss ∧
        ∀ (i : Nat) (t : String), texts[i]? = some t →
          ∃ toks rows, tokss[i]? = some toks ∧
            ls.ctx.tokenize t max_length = Except.ok toks ∧
            ls.ctx.forward (padTo ls.ctx.padToken (maxLen tokss) toks) = Except.ok rows ∧
            embs[i]? = some (meanPool rows) := by
  obtain ⟨tokss, rowss, htokss, hrowss, hembs, hlen1, hlen2⟩ :=
    generate_batch_embeddings_ok ls texts max_length embs hok
  have hresp : embed_batch (some ls) { texts := texts, max_length := max_length } =
      Except.ok { embeddings := embs,
                  dimension := (embs.head?.map List.length).getD 768,
                  count := embs.length } := by
    simp only [embed_batch]
    rw [if_neg (by simp [List.length_eq_zero, hne])]
    simp [hok]
  refine ⟨_, hresp, ?_, ?_, rfl, tokss, htokss, ?_⟩
  · simp [hembs, hlen2]
  · simp [hembs, hlen2]
  · intro i t ht
    obtain ⟨toks, htoksi, htokok⟩ := mapE_ok_get _ texts tokss htokss i t ht
    have hpad : (tokss.map (padTo ls.ctx.padToken (maxLen tokss)))[i]? =
        some (padTo ls.ctx.padToken (maxLen tokss) toks) := by
      simp [List.getElem?_map, htoksi]
    obtain ⟨rows, hrowsi, hfok⟩ := mapE_ok_get _ _ rowss hrowss i _ hpad
    refine ⟨toks, rows, htoksi, htokok, hfok, ?_⟩
    simp [hembs, List.getElem?_map, hrowsi]

/-- Witness for `embed_batch_count_and_order` on a concrete model and a
two-text batch. -/
theorem embed_batch_count_and_order_witness :
    ∃ resp, embed_batch (some wLs) { texts := ["a", "b"], max_length := 512 } =
        Except.ok resp ∧
      resp.count = (["a", "b"] : List String).length ∧
      resp.embeddings.length = (["a", "b"] : List String).length ∧
      resp.embeddings = ([[(1 : ℚ), 2], [1, 2]] : List (List ℚ)) ∧
      ∃ tokss, mapE (fun t => wLs.ctx.tokenize t 512) ["a", "b"] = Except.ok tokss ∧
        ∀ (i : Nat) (t : String), (["a", "b"] : List String)[i]? = some t →
          ∃ toks rows, tokss[i]? = some toks ∧
            wLs.ctx.tokenize t 512 = Except.ok toks ∧
            wLs.ctx.forward (padTo wLs.ctx.padToken (maxLen tokss) toks) = Except.ok rows ∧
            ([[(1 : ℚ), 2], [1, 2]] : List (List ℚ))[i]? = some (meanPool rows) :=
  embed_batch_count_and_order wLs ["a", "b"] 512 (by decide) [[1, 2], [1, 2]]
    (by simp [generate_batch_embeddings, wLs, wCtx, mapE, maxLen, padTo, meanPool]
        norm_num [List.range_succ])

/-- Length of a successful `generate_embedding` result, under the external
model's shape contract (tokenizers emit at least one token; the forward
pass yields one non-empty stack of rows of width `hiddenSize`). -/
theorem generate_embedding_ok_length (ls : LoadedState) (text : String)
    (max_length : Nat) (emb : List ℚ)
    (hok : generate_embedding (some ls) text max_length = Except.ok emb)
    (htokne : ∀ t ml toks, ls.ctx.tokenize t ml = Except.ok toks → toks ≠ [])
    (hshape : ∀ toks rows, toks ≠ [] → ls.ctx.forward toks = Except.ok rows →
      rows ≠ [] ∧ ∀ row ∈ rows, row.length = ls.ctx.hiddenSize) :
    emb.length = ls.ctx.hiddenSize := by
  obtain ⟨toks, rows, htok, hfwd, hemb⟩ :=
    generate_embedding_ok ls text max_length emb hok
  obtain ⟨hrne, hrows⟩ := hshape toks rows (htokne _ _ _ htok) hfwd
  subst hemb
  exact meanPool_length_eq hrne hrows

/-- Claim C7, counterexample: on a loaded model of hidden size 3, `/health`
reports dimension 3 while the empty-batch `/embed/batch` response carries
dimension 768, so the dimension field is not constant across health and
every inference response as claimed. -/
theorem health_vs_empty_batch_dimension :
    health_check (some oddLs) =
      Except.ok { status := "healthy", model := "microsoft/codebert-base",
                  device := "cpu", dimension := 3 } ∧
    embed_batch (some oddLs) { texts := [], max_length := 512 } =
      Except.ok { embeddings := [], dimension := 768, count := 0 } ∧
    (3 : Nat) ≠ 768 := by
  refine ⟨?_, rfl, by decide⟩
  simp [health_check, generate_embedding, oddLs, oddCtx, meanPool, Device.str]

/-- Claim C7 as amended: under the external model's shape contract, the
dimension reported by `/health` and the `dimension` field of every `/embed`
response and of every non-empty `/embed/batch` response all equal the
loaded model's hidden size; the empty-batch `/embed/batch` response instead
carries the hard-coded dimension 768, which agrees with the rest only when
the hidden size is 768. -/
theorem dimension_reported_consistently (ls : LoadedState)
    (htokne : ∀ t ml toks, ls.ctx.tokenize t ml = Except.ok toks → toks ≠ [])
    (hshape : ∀ toks rows, toks ≠ [] → ls.ctx.forward toks = Except.ok rows →
      rows ≠ [] ∧ ∀ row ∈ rows, row.length = ls.ctx.hiddenSize) :
    (∀ h, health_check (some ls) = Except.ok h → h.dimension = ls.ctx.hiddenSize) ∧
    (∀ req resp, embed_text (some ls) req = Except.ok resp →
      resp.dimension = ls.ctx.hiddenSize) ∧
    (∀ breq resp, breq.texts ≠ [] → embed_batch (some ls) breq = Except.ok resp →
      resp.dimension = ls.ctx.hiddenSize) ∧
    (∀ ml, embed_batch (some ls) { texts := [], max_length := ml } =
      Except.ok { embeddings := [], dimension := 768, count := 0 }) := by
  refine ⟨?_, ?_, ?_, fun ml => rfl⟩
  · intro h hok
    simp only [health_check] at hok
    split at hok
    next e hg => exact absurd hok (by simp)
    next emb hg =>
      simp only [Except.ok.injEq] at hok
      subst hok
      exact generate_embedding_ok_length ls "test" 512 emb hg htokne hshape
  · intro req resp hok
    simp only [embed_text] at hok
    split at hok
    next emb hg =>
      simp only [Except.ok.injEq] at hok
      subst hok
      exact generate_embedding_ok_length ls req.text req.max_length emb hg htokne hshape
    next e hg => exact absurd hok (by simp)
  · intro breq resp hne hok
    simp only [embed_batch] at hok
    rw [if_neg (by simp [List.length_eq_zero, hne])] at hok
    split at hok
    next embs hg =>
      simp only [Except.ok.injEq] at hok
      subst hok
      obtain ⟨tokss, rowss, htokss, hrowss, hembs, hlen1, hlen2⟩ :=
        generate_batch_embeddings_ok ls breq.texts breq.max_length embs hg
      obtain ⟨t0, hts0⟩ : ∃ t0, breq.texts[0]? = some t0 := by
        cases hcase : breq.texts with
        | nil => exact absurd hcase hne
        | cons a as => exact ⟨a, by simp [hcase]⟩
      obtain ⟨toks0, htoks0, htokok0⟩ := mapE_ok_get _ _ tokss htokss 0 t0 hts0
      have hpad0 : (tokss.map (padTo ls.ctx.padToken (maxLen tokss)))[0]? =
          some (padTo ls.ctx.padToken (maxLen tokss) toks0) := by
        simp [List.getElem?_map, htoks0]
      obtain ⟨rows0, hrows0, hfok0⟩ := mapE_ok_get _ _ rowss hrowss 0 _ hpad0
      obtain ⟨hrne0, hlens0⟩ :=
        hshape _ rows0 (padTo_ne_nil (htokne _ _ _ htokok0)) hfok0
      have hlen0 : (meanPool rows0).length = ls.ctx.hiddenSize :=
        meanPool_length_eq hrne0 hlens0
      have hhead : embs.head? = some (meanPool rows0) := by
        rw [List.head?_eq_getElem?]
        simp [hembs, List.getElem?_map, hrows0]
      simp [hhead, hlen0]
    next e hg => exact absurd hok (by simp)

/-- Witness for `dimension_reported_consistently` on a concrete model. -/
theorem dimension_reported_consistently_witness :
    (∀ h, health_check (some wLs) = Except.ok h → h.dimension = wLs.ctx.hiddenSize) ∧
    (∀ req resp, embed_text (some wLs) req = Except.ok resp →
      resp.dimension = wLs.ctx.hiddenSize) ∧
    (∀ breq resp, breq.texts ≠ [] → embed_batch (some wLs) breq = Except.ok resp →
      resp.dimension = wLs.ctx.hiddenSize) ∧
    (∀ ml, embed_batch (some wLs) { texts := [], max_length := ml } =
      Except.ok { embeddings := [], dimension := 768, count := 0 }) :=
  dimension_reported_consistently wLs
    (fun t ml toks h => by
      simp only [wLs, wCtx] at h
      split at h <;> (simp only [Except.ok.injEq] at h; subst h; simp))
    (fun toks rows hne h => by
      simp only [wLs, wCtx, Except.ok.injEq] at h
      subst h
      exact ⟨by simp, by decide⟩)

/-- Claim C8, counterexample: with `MODEL_NAME=custom/model` configured,
`load_model` records the configured name, but `/health` still reports the
hard-coded string `microsoft/codebert-base`, not the identifier of the
model that was actually loaded. -/
theorem health_model_name_counterexample :
    customLs.modelName = "custom/model" ∧
    health_check (some customLs) =
      Except.ok { status := "healthy", model := "microsoft/codebert-base",
                  device := "cpu", dimension := 3 } ∧
    ("microsoft/codebert-base" : String) ≠ "custom/model" := by
  refine ⟨by decide, ?_, by decide⟩
  simp [health_check, generate_embedding, customLs, customEnv, customHub, load_model,
    oddCtx, meanPool, Device.str]

/-- Claim C8 as amended: `load_model` does load the configured `MODEL_NAME`
(defaulting to `microsoft/codebert-base`) and `/health` reports the active
device and live dimensionality, but its `model` field is always the literal
`microsoft/codebert-base`, whatever model was configured and loaded. -/
theorem health_reports_hardcoded_model (env : String → Option String)
    (from_pretrained : String → ModelCtx) (cuda mps : Bool) (h : HealthResponse)
    (hok : health_check (some (load_model env from_pretrained cuda mps)) =
      Except.ok h) :
    (load_model env from_pretrained cuda mps).modelName =
      (env "MODEL_NAME").getD "microsoft/codebert-base" ∧
    h.status = "healthy" ∧
    h.model = "microsoft/codebert-base" ∧
    h.device = (load_model env from_pretrained cuda mps).device.str := by
  refine ⟨rfl, ?_⟩
  simp only [health_check] at hok
  split at hok
  next e hg => exact absurd hok (by simp)
  next emb hg =>
    simp only [Except.ok.injEq] at hok
    subst hok
    exact ⟨rfl, rfl, rfl⟩

/-- Witness for `health_reports_hardcoded_model` under the concrete
environment `MODEL_NAME=custom/model`. -/
theorem health_reports_hardcoded_model_witness :
    (load_model customEnv customHub false false).modelName =
      (customEnv "MODEL_NAME").getD "microsoft/codebert-base" ∧
    ({ status := "healthy", model := "microsoft/codebert-base",
       device := "cpu", dimension := 3 } : HealthResponse).status = "healthy" ∧
    ({ status := "healthy", model := "microsoft/codebert-base",
       device := "cpu", dimension := 3 } : HealthResponse).model =
      "microsoft/codebert-base" ∧
    ({ status := "healthy", model := "microsoft/codebert-base",
       device := "cpu", dimension := 3 } : HealthResponse).device =
      (load_model customEnv customHub false false).device.str :=
  health_reports_hardcoded_model customEnv customHub false false
    { status := "healthy", model := "microsoft/codebert-base",
      device := "cpu", dimension := 3 }
    (by simp [health_check, generate_embedding, load_model, customEnv, customHub,
          oddCtx, meanPool, Device.str])
